import Mathlib

/-!
Verification of the market-reaction anomaly engine of the
`senior-project` repository against its natural-language specification.

The engine's concrete code lives in `src/data/etf_analysis.py`:
keyword-based sector prediction (`predict_sectors`), price sampling with a
bounded forward search for trading days (`get_etf_prices`), directional
labelling of the observed percentage change, and the per-bill batch loop
(`main`).  Prices and percentages are modelled as rationals, calendar
dates as integers (day numbers).  Components of the specification whose
implementation is not present in the repository sources (the Baseline
Estimator and the Deviation Classifier, whose output is only consumed by
`analysis_compile.py`) are modelled directly from the specification text
and are marked as such.
-/

/-- Python's `str.count` for a non-empty pattern: number of
non-overlapping occurrences in the haystack, scanning left to right and
skipping the whole pattern after each match.  Every step advances at
least one character, so the haystack length is the needed fuel; the
recursion is structural in the fuel so that concrete calls evaluate. -/
def pyCountAux (pat : List Char) : Nat → List Char → Nat
  | 0, _ => 0
  | _ + 1, [] => 0
  | fuel + 1, c :: t =>
    if pat.isPrefixOf (c :: t) then
      1 + pyCountAux pat fuel (t.drop (pat.length - 1))
    else
      pyCountAux pat fuel t

/-- `pyCount hay pat` is Python's `hay.count(pat)` (an empty pattern
counts `len(hay) + 1` occurrences, as in Python). -/
def pyCount (hay pat : List Char) : Nat :=
  match pat with
  | [] => hay.length + 1
  | _ :: _ => pyCountAux pat hay.length hay

/-- The `SECTOR_KEYWORDS` table of `etf_analysis.py`:
sector name, proxy ETF ticker, and keyword list. -/
def SECTOR_KEYWORDS : List (String × String × List String) :=
  [ ("healthcare", "XLV",
      ["health", "medical", "drug", "pharmaceutical", "medicare", "medicaid",
       "hospital", "patient", "disease", "clinical", "healthcare", "prescription",
       "fda", "vaccine", "treatment", "therapy", "nursing"]),
    ("technology", "XLK",
      ["technology", "tech", "software", "data", "cyber", "internet", "digital",
       "ai", "artificial intelligence", "semiconductor", "computer", "algorithm",
       "broadband", "5g", "telecom", "communications"]),
    ("finance", "XLF",
      ["bank", "finance", "financial", "loan", "credit", "mortgage", "insurance",
       "deposit", "banking", "investor", "securities", "investment", "capital",
       "interest rate", "fed", "federal reserve"]),
    ("energy", "XLE",
      ["energy", "oil", "gas", "petroleum", "fossil fuel", "renewable", "solar",
       "wind", "coal", "fuel", "power plant", "utility", "electric"]),
    ("consumer", "XLY",
      ["consumer", "retail", "store", "shop", "purchase", "sales", "product",
       "brand", "restaurant", "food service", "advertising", "e-commerce"]),
    ("industrials", "XLI",
      ["manufacturing", "industrial", "factory", "construction", "infrastructure",
       "machinery", "transport", "airline", "defense", "aerospace", "railroad"]),
    ("materials", "XLB",
      ["material", "chemical", "mining", "metal", "steel", "commodity", "agriculture",
       "cement", "paper", "plastic"]) ]

/-- Per-sector keyword-occurrence scores over the lowercased bill text:
the `sector_scores` accumulation loop of `predict_sectors`.  Every sector
of the table appears exactly once, in table order, with the sum of the
occurrence counts of its keywords. -/
def sectorScores (bill_text : String) : List (String × Nat) :=
  let text_lower := bill_text.toList.map Char.toLower
  SECTOR_KEYWORDS.map (fun e =>
    (e.1, (e.2.2.map (fun k => pyCount text_lower k.toList)).sum))

/-- `predict_sectors` of `etf_analysis.py`: keep the sectors with a
strictly positive score and sort them by score, descending.  Python's
`sorted` with `reverse=True` is a stable descending sort; a stable
insertion sort under `b.2 ≤ a.2` (ties keep the earlier element first)
computes the same list. -/
def predict_sectors (bill_text : String) : List (String × Nat) :=
  List.insertionSort (fun a b => b.2 ≤ a.2)
    ((sectorScores bill_text).filter (fun p => 0 < p.2))

/-- The ETF ticker the `main` loop looks up for a sector
(`SECTOR_KEYWORDS[top_sector]["etf"]`). -/
def etfOf (sector : String) : String :=
  ((SECTOR_KEYWORDS.find? (fun e => e.1 = sector)).map (fun e => e.2.1)).getD ""

/-- The directional label computed in `main` from the observed percentage
change (lines 149-155 of `etf_analysis.py`): `> 2` is positive, `< -2`
negative, anything else neutral. -/
def determineLabel (price_change : ℚ) : String :=
  if price_change > 2 then "positive"
  else if price_change < -2 then "negative"
  else "neutral"

/-- A downloaded price series: calendar day numbers paired with closing
prices.  `data.lookup d` plays the role of `d in data.index` followed by
`data.loc[d, "Close"]`. -/
abbrev PriceData := List (Int × ℚ)

/-- The bounded linear trading-day search of `get_etf_prices`: try the
offsets `0, 1, ..., bound - 1` forward from `start` and return the first
calendar day present in the series together with its closing price
(the `for i in range(...)` loops at lines 78-83 and 91-95 of
`etf_analysis.py`). -/
def searchForward (data : PriceData) (start : Int) : Nat → Option (Int × ℚ)
  | 0 => none
  | bound + 1 =>
    match data.lookup start with
    | some p => some (start, p)
    | none => searchForward data (start + 1) bound

/-- `get_etf_prices` of `etf_analysis.py`, given the already-downloaded
price data: an empty download returns the no-data triple; the on-date
price is searched up to 10 days forward from the anchor; the after price
up to 30 days forward from `anchor + days_after`; if either search fails
the no-data triple is returned.  A resolved on-date price of `0` makes
the Python division raise `ZeroDivisionError`, which the surrounding
`except` clause turns into the same `(None, None, None)` triple; the
`price_on_date = 0` branch models that. -/
def get_etf_prices (data : PriceData) (date_obj : Int) (days_after : Int) :
    Option ℚ × Option ℚ × Option ℚ :=
  if data.isEmpty then (none, none, none)
  else
    match searchForward data date_obj 10 with
    | none => (none, none, none)
    | some (_, price_on_date) =>
      match searchForward data (date_obj + days_after) 30 with
      | none => (none, none, none)
      | some (_, future_price) =>
        if price_on_date = 0 then (none, none, none)
        else
          (some price_on_date, some future_price,
           some ((future_price - price_on_date) / price_on_date * 100))

/-- Rounding half to even, as Python's built-in `round` on exact values. -/
def roundHalfEven (x : ℚ) : Int :=
  let f : Int := ⌊x⌋
  if x - f < 1/2 then f
  else if x - f > 1/2 then f + 1
  else if f % 2 = 0 then f else f + 1

/-- Python's `round(x, 2)`. -/
def roundTo2 (x : ℚ) : ℚ :=
  (roundHalfEven (x * 100) : ℚ) / 100

/-- The external world the `main` loop talks to: date parsing
(`datetime.strptime`, whose failure the `except` clause catches) and the
`yf.download` price fetch for a ticker over a day range. -/
structure MarketEnv where
  parseDate : String → Option Int
  download : String → Int → Int → PriceData

/-- `get_etf_prices` as called from `main`: parse the date string and
download `[date_obj, date_obj + days_after + 30)`; a parse failure is
caught by the `except` clause and yields the no-data triple. -/
def getEtfPricesOf (env : MarketEnv) (etf_ticker : String) (date_str : String)
    (days_after : Int) : Option ℚ × Option ℚ × Option ℚ :=
  match env.parseDate date_str with
  | none => (none, none, none)
  | some date_obj =>
    get_etf_prices (env.download etf_ticker date_obj (date_obj + days_after + 30))
      date_obj days_after

/-- One input record of the `main` loop (an entry of
`bills_cleaned.json`); `text` and `latest_action_date` are optional
because the loop reads them with `.get`. -/
structure Bill where
  bill_number : String
  bill_type : String
  title : String
  text : Option String
  latest_action_date : Option String
deriving DecidableEq, Repr

/-- One output record of the `main` loop (an entry of
`bill_etf_analysis.json`). -/
structure AnalysisResult where
  bill_number : String
  bill_type : String
  title : String
  enactment_date : String
  predicted_sector : String
  sector_score : Nat
  etf_ticker : String
  price_on_date : ℚ
  price_30d_later : ℚ
  price_change_pct : ℚ
  label : String
  all_sectors : List (String × Nat)
deriving DecidableEq, Repr

/-- The body of the `main` loop for one bill: `none` is the `continue`
path (no sector matched, missing or empty enactment date, or no price
data), `some` is the record appended to `results`.  The Python code
tests only `price_on_date is None` before using all three values; the
sampler only ever returns all three or none of them, so the full match
is the same test. -/
def processBill (env : MarketEnv) (bill : Bill) : Option AnalysisResult :=
  let sectors := predict_sectors (bill.text.getD "")
  match sectors with
  | [] => none
  | (top_sector, score) :: _ =>
    let etf_ticker := etfOf top_sector
    match bill.latest_action_date with
    | none => none
    | some enactment_date =>
      if enactment_date = "" then none
      else
        match getEtfPricesOf env etf_ticker enactment_date 30 with
        | (some price_on_date, some future_price, some price_change) =>
          some { bill_number := bill.bill_number
                 bill_type := bill.bill_type
                 title := bill.title
                 enactment_date := enactment_date
                 predicted_sector := top_sector
                 sector_score := score
                 etf_ticker := etf_ticker
                 price_on_date := roundTo2 price_on_date
                 price_30d_later := roundTo2 future_price
                 price_change_pct := roundTo2 price_change
                 label := determineLabel price_change
                 all_sectors := sectors }
        | _ => none

/-- The `main` loop over the bill list: failed bills are skipped
(`continue`), successful ones contribute one record, in order. -/
def mainLoop (env : MarketEnv) : List Bill → List AnalysisResult
  | [] => []
  | bill :: rest =>
    match processBill env bill with
    | none => mainLoop env rest
    | some r => r :: mainLoop env rest

/-- Severity tiers of the Deviation Classifier (spec §4.4, consumed as
`impact_classification` strings by `analysis_compile.py`). -/
inductive Severity
  | normal_range
  | moderate_anomaly
  | major_anomaly
deriving DecidableEq, Repr

/-- Per-instrument baseline distribution (spec §3). -/
structure BaselineStats where
  mean_change : ℚ
  std_change : ℚ
deriving DecidableEq, Repr

/-- Modelled from the spec: the Deviation Classifier (§4.4) has no
implementation under `src/` — only its output file is consumed by
`analysis_compile.py`.  `z_score = (pct_change - mean) / std`, failing
(`none`) when `std_change = 0`; severity `|z| > 2` major, `|z| > 1`
moderate, otherwise normal, boundaries falling to the lower tier. -/
def classify (pct_change : ℚ) (baseline : BaselineStats) : Option (ℚ × Severity) :=
  if baseline.std_change = 0 then none
  else
    let z := (pct_change - baseline.mean_change) / baseline.std_change
    some (z,
      if |z| > 2 then Severity.major_anomaly
      else if |z| > 1 then Severity.moderate_anomaly
      else Severity.normal_range)

/-- Modelled from the spec: the Baseline Estimator (§4.3) has no
implementation under `src/`.  The overlapping horizon-offset percentage
changes: for every index `i` with both `series[i]` and
`series[i + horizon_days]` available,
`(series[i+horizon_days] - series[i]) / series[i] * 100`. -/
def pctChanges (series : List ℚ) (horizon_days : Nat) : List ℚ :=
  (series.zip (series.drop horizon_days)).map (fun q => (q.2 - q.1) / q.1 * 100)

/-- Sample mean of a list of rationals. -/
def sampleMean (l : List ℚ) : ℚ := l.sum / l.length

/-- Squared sample standard deviation (sample variance, denominator
`n - 1`) of a list of rationals. -/
def sampleVariance (l : List ℚ) : ℚ :=
  (l.map (fun c => (c - sampleMean l) ^ 2)).sum / ((l.length : ℚ) - 1)

/-- Modelled from the spec: `compute_baseline` (§4.3) has no
implementation under `src/`.  Fails (`InsufficientData`, here `none`)
when fewer than `horizon_days + 1` points exist; otherwise returns the
sample mean and the sample variance of the overlapping horizon-offset
percentage changes (`std_change` of the spec is the real square root of
the returned variance, kept squared to stay rational). -/
def compute_baseline (series : List ℚ) (horizon_days : Nat) : Option (ℚ × ℚ) :=
  if series.length < horizon_days + 1 then none
  else
    let changes := pctChanges series horizon_days
    some (sampleMean changes, sampleVariance changes)

/-- Modelled from the spec: the backward direction of the Trading-Day
Resolver (§4.1), which §4.2 and claim C5 say produces `price_before`:
a single-step search over `anchor - 1, anchor - 2, ...,
anchor - max_offset_days`.  No backward search exists in `src/`; this
definition follows the spec's words, for comparison with the code's
forward search. -/
def resolveBackwardFrom (data : PriceData) (day : Int) : Nat → Option (Int × ℚ)
  | 0 => none
  | n + 1 =>
    match data.lookup day with
    | some p => some (day, p)
    | none => resolveBackwardFrom data (day - 1) n

/-- Modelled from the spec: backward resolution from the anchor within
`max_offset_days` days before it (§4.1, §4.2). -/
def resolveBackward (data : PriceData) (anchor : Int) (max_offset_days : Nat) :
    Option (Int × ℚ) :=
  resolveBackwardFrom data (anchor - 1) max_offset_days

/-- A bill with no text and no enactment date: the batch loop skips it at
its first guard. -/
def billFailW : Bill :=
  { bill_number := "1", bill_type := "hr", title := "t",
    text := none, latest_action_date := none }

/-- A bill whose text mentions health care and whose date parses. -/
def billOkW : Bill :=
  { bill_number := "2", bill_type := "s", title := "u",
    text := some "health", latest_action_date := some "2020-01-01" }

/-- A concrete external world: every date string parses to day 0 and
every download returns the series `{0 ↦ 4, 30 ↦ 5}`. -/
def envW : MarketEnv :=
  { parseDate := fun _ => some 0, download := fun _ _ _ => [(0, 4), (30, 5)] }

/-- The record the batch loop emits for `billOkW` under `envW`. -/
def resultW : AnalysisResult :=
  { bill_number := "2", bill_type := "s", title := "u",
    enactment_date := "2020-01-01", predicted_sector := "healthcare",
    sector_score := 1, etf_ticker := "XLV",
    price_on_date := roundTo2 4, price_30d_later := roundTo2 5,
    price_change_pct := roundTo2 25, label := "positive",
    all_sectors := [("healthcare", 1)] }

lemma searchForward_none_iff (data : PriceData) :
    ∀ (bound : Nat) (start : Int),
      searchForward data start bound = none ↔
        ∀ i : Int, 0 ≤ i → i < (bound : Int) → data.lookup (start + i) = none := by
  intro bound
  induction bound with
  | zero =>
    intro start
    constructor
    · intro _ i h0 hi
      exfalso
      simp only [Nat.cast_zero] at hi
      omega
    · intro _
      rfl
  | succ n ih =>
    intro start
    simp only [searchForward]
    cases h : data.lookup start with
    | some p =>
      constructor
      · intro hc
        exact absurd hc (by simp)
      · intro hall
        exfalso
        have h0 := hall 0 le_rfl (by push_cast; omega)
        rw [add_zero, h] at h0
        exact absurd h0 (by simp)
    | none =>
      rw [ih (start + 1)]
      constructor
      · intro hall i h0 hi
        rcases eq_or_lt_of_le h0 with heq | hpos
        · rw [← heq, add_zero]
          exact h
        · have hrec := hall (i - 1) (by omega) (by push_cast at hi ⊢; omega)
          have harg : start + 1 + (i - 1) = start + i := by ring
          rwa [harg] at hrec
      · intro hall i h0 hi
        have hrec := hall (i + 1) (by omega) (by push_cast at hi ⊢; omega)
        have harg : start + (i + 1) = start + 1 + i := by ring
        rwa [harg] at hrec

lemma searchForward_some (data : PriceData) :
    ∀ (bound : Nat) (start d : Int) (p : ℚ),
      searchForward data start bound = some (d, p) →
        start ≤ d ∧ d < start + (bound : Int) ∧ data.lookup d = some p ∧
          ∀ j : Int, start ≤ j → j < d → data.lookup j = none := by
  intro bound
  induction bound with
  | zero =>
    intro start d p h
    exact absurd h (by simp [searchForward])
  | succ n ih =>
    intro start d p h
    simp only [searchForward] at h
    cases hl : data.lookup start with
    | some q =>
      rw [hl] at h
      have hinj := Option.some.inj h
      have hd : start = d := congrArg Prod.fst hinj
      have hp : q = p := congrArg Prod.snd hinj
      refine ⟨le_of_eq hd, by push_cast; omega, ?_, ?_⟩
      · rw [← hd, hl, hp]
      · intro j hj1 hj2
        exfalso
        rw [← hd] at hj2
        omega
    | none =>
      rw [hl] at h
      obtain ⟨h1, h2, h3, h4⟩ := ih (start + 1) d p h
      refine ⟨by omega, by push_cast at h2 ⊢; omega, h3, ?_⟩
      intro j hj1 hj2
      rcases eq_or_lt_of_le hj1 with heq | hlt
      · rw [← heq]
        exact hl
      · exact h4 j (by omega) hj2

lemma searchForward_of_lookup (data : PriceData) (start : Int) (p : ℚ)
    (bound : Nat) (h : data.lookup start = some p) (hb : 0 < bound) :
    searchForward data start bound = some (start, p) := by
  cases bound with
  | zero => exact absurd hb (lt_irrefl 0)
  | succ n => simp [searchForward, h]

/-- Case analysis on the result of `get_etf_prices`: either the no-data
triple, or both searches succeeded with a nonzero on-date price and all
three components are returned. -/
lemma get_etf_prices_cases (data : PriceData) (date_obj days_after : Int) :
    get_etf_prices data date_obj days_after = (none, none, none) ∨
    ∃ t₁ b t₂ a, searchForward data date_obj 10 = some (t₁, b) ∧
      searchForward data (date_obj + days_after) 30 = some (t₂, a) ∧ b ≠ 0 ∧
      get_etf_prices data date_obj days_after =
        (some b, some a, some ((a - b) / b * 100)) := by
  unfold get_etf_prices
  split
  · left
    rfl
  · rcases h1 : searchForward data date_obj 10 with _ | ⟨t₁, b⟩
    · left
      rfl
    · rcases h2 : searchForward data (date_obj + days_after) 30 with _ | ⟨t₂, a⟩
      · left
        rfl
      · by_cases hb : b = 0
        · left
          simp [hb]
        · right
          exact ⟨t₁, b, t₂, a, rfl, rfl, hb, by simp [hb]⟩

/-- Claim C1: the directional label produced from the observed percentage
change with fixed threshold `2` is `positive` exactly when
`pct_change > 2`, `negative` exactly when `pct_change < -2`, and
`neutral` exactly when `|pct_change| ≤ 2`; in particular `pct_change = 2`
is labelled `neutral`, not `positive` (strict inequality), while
`pct_change = 2.0001` is labelled `positive`. -/
theorem label_threshold_strict (pct_change : ℚ) :
    (determineLabel pct_change = "positive" ↔ pct_change > 2) ∧
    (determineLabel pct_change = "negative" ↔ pct_change < -2) ∧
    (determineLabel pct_change = "neutral" ↔ |pct_change| ≤ 2) ∧
    determineLabel 2 = "neutral" ∧
    determineLabel (20001 / 10000) = "positive" := by
  refine ⟨?_, ?_, ?_, by norm_num [determineLabel], by norm_num [determineLabel]⟩
  · unfold determineLabel
    split_ifs with h1 h2
    · simpa using h1
    · constructor
      · intro hc
        exact absurd hc (by decide)
      · intro hc
        exact absurd hc h1
    · constructor
      · intro hc
        exact absurd hc (by decide)
      · intro hc
        exact absurd hc h1
  · unfold determineLabel
    split_ifs with h1 h2
    · constructor
      · intro hc
        exact absurd hc (by decide)
      · intro hc
        linarith
    · simpa using h2
    · constructor
      · intro hc
        exact absurd hc (by decide)
      · intro hc
        exact absurd hc h2
  · unfold determineLabel
    split_ifs with h1 h2
    · constructor
      · intro hc
        exact absurd hc (by decide)
      · intro hc
        have := le_abs_self pct_change
        linarith
    · constructor
      · intro hc
        exact absurd hc (by decide)
      · intro hc
        have := neg_abs_le pct_change
        linarith
    · simp only [true_iff]
      exact abs_le.mpr ⟨by linarith, by linarith⟩

/-- Claim C2: `classify` buckets the absolute z-score into severity
tiers — `|z| > 2` major, `1 < |z| ≤ 2` moderate, otherwise normal, with
boundary values falling to the lower tier; and with `mean_change = 0`,
`std_change = 5`, `pct_change = 10` it yields `z_score = 2` and
`moderate_anomaly`, not `major_anomaly`. -/
theorem classify_severity_tiers (pct_change : ℚ) (b : BaselineStats)
    (h : b.std_change ≠ 0) :
    (∃ z sev, classify pct_change b = some (z, sev) ∧
      z = (pct_change - b.mean_change) / b.std_change ∧
      (sev = Severity.major_anomaly ↔ 2 < |z|) ∧
      (sev = Severity.moderate_anomaly ↔ 1 < |z| ∧ |z| ≤ 2) ∧
      (sev = Severity.normal_range ↔ |z| ≤ 1)) ∧
    classify 10 ⟨0, 5⟩ = some (2, Severity.moderate_anomaly) := by
  constructor
  · unfold classify
    rw [if_neg h]
    refine ⟨_, _, rfl, rfl, ?_, ?_, ?_⟩ <;>
      set z := (pct_change - b.mean_change) / b.std_change with hz
    · split_ifs with h1 h2
      · simpa using h1
      · constructor
        · intro hc
          exact absurd hc (by decide)
        · intro hc
          exact absurd hc h1
      · constructor
        · intro hc
          exact absurd hc (by decide)
        · intro hc
          exact absurd hc h1
    · split_ifs with h1 h2
      · constructor
        · intro hc
          exact absurd hc (by decide)
        · intro hc
          linarith [hc.2]
      · constructor
        · intro _
          exact ⟨h2, by linarith⟩
        · intro _
          rfl
      · constructor
        · intro hc
          exact absurd hc (by decide)
        · intro hc
          exact absurd hc.1 h2
    · split_ifs with h1 h2
      · constructor
        · intro hc
          exact absurd hc (by decide)
        · intro hc
          linarith
      · constructor
        · intro hc
          exact absurd hc (by decide)
        · intro hc
          linarith
      · simp only [true_iff]
        linarith [not_lt.mp h2]
  · norm_num [classify]

/-- Witness for C2 at `pct_change = 10`, `mean = 0`, `std = 5`. -/
theorem classify_severity_tiers_witness :
    ((5 : ℚ) ≠ 0) ∧ classify 10 ⟨0, 5⟩ = some (2, Severity.moderate_anomaly) :=
  ⟨by norm_num, (classify_severity_tiers 10 ⟨0, 5⟩ (by norm_num)).2⟩

/-- Claim C4: the trading-day search returns no result exactly when no
date inside its bounded window exists in the price series; otherwise it
returns the nearest such date (the first found by the single-step linear
search from the anchor); and when the anchor itself is a trading day the
forward search returns the anchor (it checks offset 0 first). -/
theorem resolver_bounded_search (data : PriceData) (start : Int) (bound : Nat) :
    (searchForward data start bound = none ↔
      ∀ i : Int, 0 ≤ i → i < (bound : Int) → data.lookup (start + i) = none) ∧
    (∀ d p, searchForward data start bound = some (d, p) →
      start ≤ d ∧ d < start + (bound : Int) ∧ data.lookup d = some p ∧
        ∀ j : Int, start ≤ j → j < d → data.lookup j = none) ∧
    (∀ p, data.lookup start = some p → 0 < bound →
      searchForward data start bound = some (start, p)) :=
  ⟨searchForward_none_iff data bound start,
   fun d p h => searchForward_some data bound start d p h,
   fun p h hb => searchForward_of_lookup data start p bound h hb⟩

/-- Witness for C4: on the one-point series `{2 ↦ 5}` the search from
`2` returns the anchor itself, and the search from `0` finds `2` as the
nearest in-window trading day with the earlier offsets empty. -/
theorem resolver_bounded_search_witness :
    searchForward [((2 : Int), (5 : ℚ))] 2 10 = some (2, 5) ∧
    ((0 : Int) ≤ 2 ∧ (2 : Int) < 0 + (10 : Nat) ∧
      [((2 : Int), (5 : ℚ))].lookup 2 = some 5 ∧
      ∀ j : Int, 0 ≤ j → j < 2 → [((2 : Int), (5 : ℚ))].lookup j = none) := by
  refine ⟨(resolver_bounded_search [((2 : Int), (5 : ℚ))] 2 10).2.2 5 (by decide)
      (by norm_num), ?_⟩
  exact (resolver_bounded_search [((2 : Int), (5 : ℚ))] 0 10).2.1 2 5 (by decide)

/-- Claim C3: whenever both price endpoints resolve, the observed
percentage change equals `(price_after - price_before) / price_before *
100`, with `price_before` the resolved on-date price and `price_after`
the resolved later price. -/
theorem pct_change_formula (data : PriceData) (date_obj days_after : Int)
    (b a pct : ℚ)
    (h : get_etf_prices data date_obj days_after = (some b, some a, some pct)) :
    pct = (a - b) / b * 100 ∧
    (∃ t, searchForward data date_obj 10 = some (t, b)) ∧
    (∃ t, searchForward data (date_obj + days_after) 30 = some (t, a)) := by
  rcases get_etf_prices_cases data date_obj days_after with
    hc | ⟨t₁, b', t₂, a', h1, h2, hb, heq⟩
  · rw [hc] at h
    exact absurd h (by simp)
  · rw [heq] at h
    simp only [Prod.mk.injEq, Option.some.injEq] at h
    obtain ⟨hb', ha', hp⟩ := h
    subst hb'
    subst ha'
    exact ⟨hp.symm, ⟨t₁, h1⟩, ⟨t₂, h2⟩⟩

/-- Witness for C3 on the series `{0 ↦ 4, 30 ↦ 5}` anchored at day 0:
the observed change is `25 = (5 - 4) / 4 * 100`. -/
theorem pct_change_formula_witness :
    (25 : ℚ) = (5 - 4) / 4 * 100 ∧
    (∃ t, searchForward [((0 : Int), (4 : ℚ)), (30, 5)] 0 10 = some (t, 4)) ∧
    (∃ t, searchForward [((0 : Int), (4 : ℚ)), (30, 5)] (0 + 30) 30 = some (t, 5)) :=
  pct_change_formula [((0 : Int), (4 : ℚ)), (30, 5)] 0 30 4 5 25
    (by simp [get_etf_prices, searchForward, List.lookup]; norm_num)

/-- Counterexample to claim C5: on the series `{3 ↦ 7, 33 ↦ 7}` with
anchor day 0 the sampler resolves `price_before = 7` even though no
trading day at all exists backward within 30 days of the anchor — the
spec's backward resolution returns nothing there, so `price_before` is
not found by resolving backward. -/
theorem price_before_not_backward :
    get_etf_prices [((3 : Int), (7 : ℚ)), (33, 7)] 0 30 = (some 7, some 7, some 0) ∧
    resolveBackward [((3 : Int), (7 : ℚ)), (33, 7)] 0 30 = none := by
  constructor
  · simp [get_etf_prices, searchForward, List.lookup]
  · decide

/-- Claim C5 (amended): the sampler finds `price_before` by resolving
forward in time from the event's anchor date — checking the anchor
itself first — within a bound of 10 calendar days (offsets 0 through 9)
after the anchor, not backward. -/
theorem price_before_forward_window (data : PriceData) (date_obj days_after : Int)
    (b : ℚ) (x y : Option ℚ)
    (h : get_etf_prices data date_obj days_after = (some b, x, y)) :
    ∃ t, date_obj ≤ t ∧ t ≤ date_obj + 9 ∧ data.lookup t = some b ∧
      searchForward data date_obj 10 = some (t, b) := by
  rcases get_etf_prices_cases data date_obj days_after with
    hc | ⟨t₁, b', t₂, a', h1, h2, hb, heq⟩
  · rw [hc] at h
    exact absurd h (by simp)
  · rw [heq] at h
    have hb' : b' = b := by
      simpa using congrArg (fun r => r.1) h
    subst hb'
    obtain ⟨hle, hlt, hl, _⟩ := searchForward_some data 10 date_obj t₁ b' h1
    exact ⟨t₁, hle, by push_cast at hlt; omega, hl, h1⟩

/-- Witness for the amended C5 on the series `{3 ↦ 7, 33 ↦ 7}`. -/
theorem price_before_forward_window_witness :
    ∃ t, (0 : Int) ≤ t ∧ t ≤ 0 + 9 ∧
      [((3 : Int), (7 : ℚ)), (33, 7)].lookup t = some 7 ∧
      searchForward [((3 : Int), (7 : ℚ)), (33, 7)] 0 10 = some (t, 7) :=
  price_before_forward_window [((3 : Int), (7 : ℚ)), (33, 7)] 0 30 7
    (some 7) (some 0)
    (by simp [get_etf_prices, searchForward, List.lookup])

/-- Claim C6: the sampler never returns a partial result — one price
component is absent exactly when all are — and an unresolved endpoint
search makes the whole sample the no-data triple. -/
theorem sampler_no_partial_result (data : PriceData) (date_obj days_after : Int) :
    (((get_etf_prices data date_obj days_after).1 = none ↔
        (get_etf_prices data date_obj days_after).2.1 = none) ∧
      ((get_etf_prices data date_obj days_after).1 = none ↔
        (get_etf_prices data date_obj days_after).2.2 = none)) ∧
    (searchForward data date_obj 10 = none ∨
        searchForward data (date_obj + days_after) 30 = none →
      get_etf_prices data date_obj days_after = (none, none, none)) := by
  rcases get_etf_prices_cases data date_obj days_after with
    hc | ⟨t₁, b, t₂, a, h1, h2, hb, heq⟩
  · rw [hc]
    exact ⟨⟨Iff.rfl, Iff.rfl⟩, fun _ => rfl⟩
  · rw [heq]
    constructor
    · constructor <;> simp
    · intro hor
      rcases hor with h' | h'
      · rw [h1] at h'
        exact absurd h' (by simp)
      · rw [h2] at h'
        exact absurd h' (by simp)

/-- Witness for C6: with the only trading day at 100, the on-date search
from day 0 fails and the whole sample is the no-data triple. -/
theorem sampler_no_partial_result_witness :
    get_etf_prices [((100 : Int), (5 : ℚ))] 0 30 = (none, none, none) :=
  (sampler_no_partial_result [((100 : Int), (5 : ℚ))] 0 30).2 (Or.inl (by decide))

/-- Counterexample to claim C7: a resolved on-date price of `0` is not
surfaced as a distinct error — the caught `ZeroDivisionError` produces
exactly the `(None, None, None)` no-data triple that an empty download
(NOT_FOUND) produces. -/
theorem zero_price_before_not_distinct :
    get_etf_prices [((0 : Int), (0 : ℚ)), (30, 5)] 0 30 = (none, none, none) ∧
    get_etf_prices [] 0 30 = (none, none, none) := by
  constructor
  · decide
  · decide

/-- Claim C7 (amended): `pct_change` is computed only once both endpoints
resolve with a nonzero `price_before`; a resolved `price_before` of `0`
raises `ZeroDivisionError`, which the blanket `except` clause coerces
into the same `(None, None, None)` no-data triple as NOT_FOUND instead
of a distinct error condition. -/
theorem pct_change_after_both_endpoints (data : PriceData)
    (date_obj days_after : Int) :
    (∀ pct, (get_etf_prices data date_obj days_after).2.2 = some pct →
      ∃ b a, (get_etf_prices data date_obj days_after).1 = some b ∧
        (get_etf_prices data date_obj days_after).2.1 = some a ∧
        b ≠ 0 ∧ pct = (a - b) / b * 100) ∧
    (∀ t, searchForward data date_obj 10 = some (t, (0 : ℚ)) →
      get_etf_prices data date_obj days_after = (none, none, none)) := by
  rcases get_etf_prices_cases data date_obj days_after with
    hc | ⟨t₁, b, t₂, a, h1, h2, hb, heq⟩
  · rw [hc]
    constructor
    · intro pct h
      exact absurd h (by simp)
    · intro t _
      rfl
  · rw [heq]
    constructor
    · intro pct h
      simp only [Option.some.injEq] at h
      exact ⟨b, a, rfl, rfl, hb, h.symm⟩
    · intro t h
      rw [h1] at h
      have hpair := Option.some.inj h
      have : b = 0 := congrArg Prod.snd hpair
      exact absurd this hb

/-- Witness for the amended C7: the change `25` only appears with both
endpoints `4` and `5` present, and a zero on-date price collapses to the
no-data triple. -/
theorem pct_change_after_both_endpoints_witness :
    (∃ b a, (get_etf_prices [((0 : Int), (4 : ℚ)), (30, 5)] 0 30).1 = some b ∧
      (get_etf_prices [((0 : Int), (4 : ℚ)), (30, 5)] 0 30).2.1 = some a ∧
      b ≠ 0 ∧ (25 : ℚ) = (a - b) / b * 100) ∧
    get_etf_prices [((0 : Int), (0 : ℚ)), (30, 5)] 0 30 = (none, none, none) :=
  ⟨(pct_change_after_both_endpoints [((0 : Int), (4 : ℚ)), (30, 5)] 0 30).1 25
      (by simp [get_etf_prices, searchForward, List.lookup]; norm_num),
   (pct_change_after_both_endpoints [((0 : Int), (0 : ℚ)), (30, 5)] 0 30).2 0
      (by decide)⟩

lemma sum_sq_eq_zero_forall {l : List ℚ} {m : ℚ}
    (h : (l.map (fun c => (c - m) ^ 2)).sum = 0) : ∀ c ∈ l, c = m := by
  induction l with
  | nil =>
    intro c hc
    exact absurd hc (List.not_mem_nil c)
  | cons a t ih =>
    simp only [List.map_cons, List.sum_cons] at h
    have hrest : 0 ≤ (t.map (fun c => (c - m) ^ 2)).sum := by
      apply List.sum_nonneg
      intro x hx
      obtain ⟨c, _, rfl⟩ := List.mem_map.mp hx
      exact sq_nonneg _
    have hhead : (a - m) ^ 2 = 0 := by nlinarith [sq_nonneg (a - m)]
    intro c hc
    rcases List.mem_cons.mp hc with rfl | hct
    · have := sq_eq_zero_iff.mp hhead
      linarith
    · exact ih (by linarith) c hct

lemma sampleVariance_nonneg (l : List ℚ) : 0 ≤ sampleVariance l := by
  unfold sampleVariance
  rcases l with _ | ⟨x, t⟩
  · norm_num
  · apply div_nonneg
    · apply List.sum_nonneg
      intro a ha
      obtain ⟨c, _, rfl⟩ := List.mem_map.mp ha
      exact sq_nonneg _
    · have h1 : (1 : ℚ) ≤ ((x :: t).length : ℚ) := by
        have : 1 ≤ (x :: t).length := by simp
        exact_mod_cast this
      linarith

lemma sampleVariance_eq_zero_forall {l : List ℚ} (h : sampleVariance l = 0) :
    ∀ c ∈ l, ∀ c' ∈ l, c = c' := by
  rcases l with _ | ⟨x, _ | ⟨y, t⟩⟩
  · intro c hc
    exact absurd hc (List.not_mem_nil c)
  · intro c hc c' hc'
    simp only [List.mem_singleton] at hc hc'
    rw [hc, hc']
  · intro c hc c' hc'
    unfold sampleVariance at h
    have h2 : 2 ≤ (x :: y :: t).length := by
      simp [List.length_cons]
    have hlen : (2 : ℚ) ≤ ((x :: y :: t).length : ℚ) := by exact_mod_cast h2
    have hne : ((x :: y :: t).length : ℚ) - 1 ≠ 0 := by linarith
    have hS : ((x :: y :: t).map
        (fun c => (c - sampleMean (x :: y :: t)) ^ 2)).sum = 0 := by
      rcases div_eq_zero_iff.mp h with h' | h'
      · exact h'
      · exact absurd h' hne
    have hall := sum_sq_eq_zero_forall hS
    rw [hall c hc, hall c' hc']

/-- Claim C8: on a series with at least `horizon_days + 1` points,
`compute_baseline` returns a baseline whose standard deviation — the
real square root of the returned sample variance — is nonnegative, and
is zero only when all horizon-offset pairs produce the identical
percentage change; on a shorter series it fails with `InsufficientData`
(`none`). -/
theorem compute_baseline_std_nonneg (series : List ℚ) (horizon_days : Nat) :
    (series.length < horizon_days + 1 →
      compute_baseline series horizon_days = none) ∧
    (horizon_days + 1 ≤ series.length →
      compute_baseline series horizon_days =
        some (sampleMean (pctChanges series horizon_days),
              sampleVariance (pctChanges series horizon_days)) ∧
      0 ≤ sampleVariance (pctChanges series horizon_days) ∧
      0 ≤ Real.sqrt (sampleVariance (pctChanges series horizon_days)) ∧
      (Real.sqrt (sampleVariance (pctChanges series horizon_days)) = 0 →
        ∀ c ∈ pctChanges series horizon_days,
          ∀ c' ∈ pctChanges series horizon_days, c = c')) := by
  constructor
  · intro h
    simp [compute_baseline, h]
  · intro h
    have hnot : ¬ series.length < horizon_days + 1 := not_lt.mpr h
    refine ⟨by simp [compute_baseline, hnot], sampleVariance_nonneg _,
      Real.sqrt_nonneg _, ?_⟩
    intro h0
    have hvar0 : sampleVariance (pctChanges series horizon_days) = 0 := by
      have hle : ((sampleVariance (pctChanges series horizon_days) : ℚ) : ℝ) ≤ 0 :=
        Real.sqrt_eq_zero'.mp h0
      have hge : (0 : ℝ) ≤ ((sampleVariance (pctChanges series horizon_days) : ℚ) : ℝ) := by
        exact_mod_cast sampleVariance_nonneg (pctChanges series horizon_days)
      exact_mod_cast le_antisymm hle hge
    exact sampleVariance_eq_zero_forall hvar0

/-- Witness for C8: the two-point series `[1]` is too short for horizon
1, while `[1, 2, 4]` yields mean and variance, the latter nonnegative. -/
theorem compute_baseline_std_nonneg_witness :
    compute_baseline [(1 : ℚ)] 1 = none ∧
    compute_baseline [(1 : ℚ), 2, 4] 1 =
      some (sampleMean (pctChanges [(1 : ℚ), 2, 4] 1),
            sampleVariance (pctChanges [(1 : ℚ), 2, 4] 1)) ∧
    0 ≤ sampleVariance (pctChanges [(1 : ℚ), 2, 4] 1) := by
  have h1 := (compute_baseline_std_nonneg [(1 : ℚ)] 1).1 (by simp)
  have h2 := (compute_baseline_std_nonneg [(1 : ℚ), 2, 4] 1).2 (by simp)
  exact ⟨h1, h2.1, h2.2.1⟩

/-- Claim C9: a per-event failure (`processBill` returning `none`, which
covers no sector matched, missing enactment date, unresolved price
endpoints and fetch errors) is local to that event — the batch loop
continues with the remaining bills unchanged and emits no record for the
failed one, while a success contributes exactly its own record. -/
theorem batch_loop_failure_local (env : MarketEnv) (bill : Bill)
    (rest : List Bill) :
    (processBill env bill = none →
      mainLoop env (bill :: rest) = mainLoop env rest) ∧
    (∀ r, processBill env bill = some r →
      mainLoop env (bill :: rest) = r :: mainLoop env rest) := by
  constructor
  · intro h
    simp [mainLoop, h]
  · intro r h
    simp [mainLoop, h]

/-- Witness for C9: under `envW` the no-text bill is skipped and the
healthcare bill alone produces its record. -/
theorem batch_loop_failure_local_witness :
    processBill envW billFailW = none ∧
    processBill envW billOkW = some resultW ∧
    mainLoop envW [billFailW, billOkW] = [resultW] := by
  have h1 : processBill envW billFailW = none := by decide
  have h2 : processBill envW billOkW = some resultW := by
    have hsec : predict_sectors "health" = [("healthcare", 1)] := by decide
    have hetf : etfOf "healthcare" = "XLV" := by decide
    have hprices : get_etf_prices [((0 : Int), (4 : ℚ)), (30, 5)] 0 30
        = (some 4, some 5, some 25) := by
      simp [get_etf_prices, searchForward, List.lookup]
      norm_num
    simp [processBill, billOkW, envW, getEtfPricesOf, hsec, hprices, hetf,
      determineLabel, resultW]
    norm_num
  refine ⟨h1, h2, ?_⟩
  rw [(batch_loop_failure_local envW billFailW [billOkW]).1 h1,
    (batch_loop_failure_local envW billOkW []).2 resultW h2]
  rfl

/-- Claim C10: `predict_sectors` returns exactly the sector-score pairs
of the seven-sector table with strictly positive keyword-occurrence
score — a zero-score sector never appears — sorted in non-increasing
order of score. -/
theorem predict_sectors_positive_sorted (bill_text : String) :
    (∀ p ∈ predict_sectors bill_text, 0 < p.2) ∧
    List.Sorted (fun a b : String × Nat => b.2 ≤ a.2)
      (predict_sectors bill_text) ∧
    (predict_sectors bill_text).Perm
      ((sectorScores bill_text).filter (fun p => 0 < p.2)) := by
  have hperm : (predict_sectors bill_text).Perm
      ((sectorScores bill_text).filter (fun p => 0 < p.2)) :=
    List.perm_insertionSort _ _
  refine ⟨?_, ?_, hperm⟩
  · intro p hp
    have hmem : p ∈ (sectorScores bill_text).filter (fun p => 0 < p.2) :=
      hperm.mem_iff.mp hp
    have := (List.mem_filter.mp hmem).2
    exact of_decide_eq_true this
  · haveI : IsTotal (String × Nat) (fun a b => b.2 ≤ a.2) :=
      ⟨fun a b => le_total b.2 a.2⟩
    haveI : IsTrans (String × Nat) (fun a b => b.2 ≤ a.2) :=
      ⟨fun a b c h1 h2 => le_trans h2 h1⟩
    exact List.sorted_insertionSort _ _

/-- Witness for C10: on the text `"bank banker"` the finance sector
appears with score 2, which is strictly positive. -/
theorem predict_sectors_positive_sorted_witness :
    ("finance", 2) ∈ predict_sectors "bank banker" ∧
    0 < (("finance", 2) : String × Nat).2 :=
  ⟨by decide,
   (predict_sectors_positive_sorted "bank banker").1 ("finance", 2) (by decide)⟩
